import Mathlib

/-!
# GolangVideoCall: the signaling relay of `main.go`

A shallow embedding of the relay core of `main.go` (`VideoConnections`, `wsLoop`,
`natsConnLoop`, `closeWS`) together with the properties of its topic naming, its
inbound pump and its bus-side delivery callback.

Conventions.
* A Go `string` / `[]byte` is a sequence of bytes, modelled as `List Nat`.
* Calls into the outside world (`ws.Read`, `ws.Write`, `ws.Close`, `PublishMsg`,
  `Subscribe`, `websocket.Accept`) take their outcome from an explicit argument and
  leave an `Event` in a trace, in program order.
* The three ways a Go function can end (`return`, `panic`, `os.Exit`) are the
  constructors of `Outcome`.
* The functions of the Go standard library that lines 79-83 call (`strings.ToLower`
  with `strings.Map`, `unicode.ToLower` and the UTF-8 codec, `sort.Strings`,
  `fmt.Sprintf`) are modelled after the library.
-/

namespace VideoCall

/-! ## Go strings -/

/-- A Go string: an immutable sequence of bytes. -/
abbrev GoString := List Nat

/-- The bytes of an ASCII string literal of the source. -/
def lit (s : String) : GoString := s.toList.map Char.toNat

/-- Go's `<` on strings: bytewise lexicographic comparison, a proper prefix being
smaller. -/
def strLess : GoString → GoString → Bool
  | [], [] => false
  | [], _ :: _ => true
  | _ :: _, [] => false
  | a :: as, b :: bs => if a < b then true else if b < a then false else strLess as bs

/-- First scan of `strings.ToLower`: no byte reaches `utf8.RuneSelf` (0x80). -/
def isASCII (s : GoString) : Bool := s.all (fun c => decide (c < 128))

/-- First scan of `strings.ToLower`: some byte lies in `'A'..'Z'`. -/
def hasUpper (s : GoString) : Bool := s.any (fun c => decide (65 ≤ c ∧ c ≤ 90))

/-- The byte step of the ASCII path of `strings.ToLower`: `c += 'a' - 'A'` on
`'A'..'Z'`, other bytes copied. -/
def toLowerByte (c : Nat) : Nat := if 65 ≤ c ∧ c ≤ 90 then c + 32 else c

/-- The library function `strings.ToLower`. A string of ASCII bytes is returned as is
when it has no upper-case letter and lowered bytewise otherwise. Any other string goes
through `strings.Map(unicode.ToLower, s)`, which reads the Unicode case tables of the
Go runtime; that path is the parameter `mapLower`, and `mapToLower` below is its model. -/
def ToLower (mapLower : GoString → GoString) (s : GoString) : GoString :=
  if isASCII s then
    if hasUpper s then s.map toLowerByte else s
  else mapLower s

/-! ## The Unicode path of `strings.ToLower` -/

/-- The constant `utf8.RuneError`, U+FFFD. -/
def RuneError : Nat := 0xFFFD

/-- The constant `unicode.MaxRune`, U+10FFFF. -/
def MaxRune : Nat := 0x10FFFF

/-- A continuation byte: `locb <= b && b <= hicb` (0x80..0xBF). -/
def isCont (b : Nat) : Bool := decide (128 ≤ b ∧ b ≤ 191)

/-- Lower end of `acceptRanges` for the second byte, by first byte: 0xA0 after 0xE0,
0x90 after 0xF0, `locb` otherwise. -/
def acceptLo (s0 : Nat) : Nat := if s0 = 224 then 160 else if s0 = 240 then 144 else 128

/-- Upper end of `acceptRanges` for the second byte, by first byte: 0x9F after 0xED,
0x8F after 0xF4, `hicb` otherwise. -/
def acceptHi (s0 : Nat) : Nat := if s0 = 237 then 159 else if s0 = 244 then 143 else 191

/-- The library function `utf8.DecodeRuneInString` (what `for i, c := range s` runs at
each position): the rune at the head of the string and its width in bytes. A byte that
starts no well-formed, shortest-form encoding of a Unicode scalar value gives
`(RuneError, 1)`. -/
def decodeRune : GoString → Nat × Nat
  | [] => (RuneError, 0)
  | s0 :: rest =>
      if s0 < 128 then (s0, 1)
      else if 194 ≤ s0 ∧ s0 ≤ 223 then
        match rest with
        | s1 :: _ =>
            if isCont s1 then (s0 % 32 * 64 + s1 % 64, 2) else (RuneError, 1)
        | [] => (RuneError, 1)
      else if 224 ≤ s0 ∧ s0 ≤ 239 then
        match rest with
        | s1 :: s2 :: _ =>
            if acceptLo s0 ≤ s1 ∧ s1 ≤ acceptHi s0 ∧ isCont s2 = true then
              (s0 % 16 * 4096 + s1 % 64 * 64 + s2 % 64, 3)
            else (RuneError, 1)
        | _ => (RuneError, 1)
      else if 240 ≤ s0 ∧ s0 ≤ 244 then
        match rest with
        | s1 :: s2 :: s3 :: _ =>
            if acceptLo s0 ≤ s1 ∧ s1 ≤ acceptHi s0 ∧ isCont s2 = true ∧ isCont s3 = true then
              (s0 % 8 * 262144 + s1 % 64 * 4096 + s2 % 64 * 64 + s3 % 64, 4)
            else (RuneError, 1)
        | _ => (RuneError, 1)
      else (RuneError, 1)

/-- The library function `utf8.AppendRune` (behind `Builder.WriteRune`): the UTF-8
encoding of a rune; a surrogate or a value above `MaxRune` is written as
`RuneError`. -/
def encodeRune (r : Nat) : GoString :=
  if r < 128 then [r]
  else if r < 2048 then [192 + r / 64, 128 + r % 64]
  else if MaxRune < r ∨ (55296 ≤ r ∧ r ≤ 57343) then [239, 191, 189]
  else if r < 65536 then [224 + r / 4096, 128 + r / 64 % 64, 128 + r % 64]
  else [240 + r / 262144, 128 + r / 4096 % 64, 128 + r / 64 % 64, 128 + r % 64]

/-- Second loop of `strings.Map`: every remaining rune is decoded, mapped and written.
`skip` counts the bytes that still belong to the rune decoded last. -/
def mapRest (mapping : Nat → Nat) : Nat → GoString → GoString
  | _, [] => []
  | skip + 1, _ :: rest => mapRest mapping skip rest
  | 0, b :: rest =>
      let d := decodeRune (b :: rest)
      encodeRune (mapping d.1) ++ mapRest mapping (d.2 - 1) rest

/-- First loop of `strings.Map`: runes are passed over while the mapping leaves them
unchanged and they are not the `RuneError` of a malformed byte; at the first other
rune the output becomes the bytes before it, the mapped rune, and the second loop on
what follows. `none` when the loop reaches the end of the string. -/
def mapFirst (mapping : Nat → Nat) : Nat → GoString → Option GoString
  | _, [] => none
  | skip + 1, b :: rest => (mapFirst mapping skip rest).map (fun out => b :: out)
  | 0, b :: rest =>
      let d := decodeRune (b :: rest)
      let r := mapping d.1
      if r = d.1 ∧ ¬ (d.1 = RuneError ∧ d.2 = 1) then
        (mapFirst mapping (d.2 - 1) rest).map (fun out => b :: out)
      else some (encodeRune r ++ mapRest mapping (d.2 - 1) rest)

/-- The library function `strings.Map`, for a mapping that never returns a negative
rune: the input itself when the first loop changes nothing. -/
def stringsMap (mapping : Nat → Nat) (s : GoString) : GoString :=
  (mapFirst mapping 0 s).getD s

/-- An entry of `unicode.CaseRanges`, with the lower-case component of its `Delta`. -/
structure CaseRange where
  Lo : Nat
  Hi : Nat
  lowerDelta : Int
deriving DecidableEq, Repr

/-- The constant `unicode.UpperLower` (`MaxRune + 1`): the range alternates upper-case
and lower-case letters, starting with an upper-case one. -/
def UpperLower : Int := 0x110000

/-- The library function `unicode.ToLower` over a case table: ASCII by arithmetic,
other runes by the entry of the table that holds them (`unicode.to`): an alternating
entry sends a rune to the odd offset of its pair, any other entry adds its delta, and a
rune held by no entry is returned as it is. Go finds the entry by binary search; the
table is sorted with disjoint entries (`sortedDisjoint`), so it is the first one that
holds the rune. -/
def toLowerRune (caseRange : List CaseRange) (r : Nat) : Nat :=
  if r ≤ 127 then
    if 65 ≤ r ∧ r ≤ 90 then r + 32 else r
  else
    match caseRange.find? (fun cr => decide (cr.Lo ≤ r ∧ r ≤ cr.Hi)) with
    | some cr =>
        if cr.lowerDelta > (MaxRune : Int) then cr.Lo + ((r - cr.Lo) / 2 * 2 + 1)
        else (r + cr.lowerDelta).toNat
    | none => r

/-- The entries of `unicode.CaseRanges` above ASCII whose lower-case delta is not zero,
as the simple lower-case mappings of Unicode 14.0.0 (`UnicodeData.txt`) give them; on
every other rune `unicode.ToLower` is the identity. Tables of other Unicode versions
differ in the letters added since; what is proved of this table is proved of every
table that passes `caseTableOk`. -/
def caseRanges : List CaseRange :=
  [
    CaseRange.mk 0x00C0 0x00D6 (32),
    CaseRange.mk 0x00D8 0x00DE (32),
    CaseRange.mk 0x0100 0x012F UpperLower,
    CaseRange.mk 0x0130 0x0130 (-199),
    CaseRange.mk 0x0132 0x0137 UpperLower,
    CaseRange.mk 0x0139 0x0148 UpperLower,
    CaseRange.mk 0x014A 0x0177 UpperLower,
    CaseRange.mk 0x0178 0x0178 (-121),
    CaseRange.mk 0x0179 0x017E UpperLower,
    CaseRange.mk 0x0181 0x0181 (210),
    CaseRange.mk 0x0182 0x0185 UpperLower,
    CaseRange.mk 0x0186 0x0186 (206),
    CaseRange.mk 0x0187 0x0187 (1),
    CaseRange.mk 0x0189 0x018A (205),
    CaseRange.mk 0x018B 0x018B (1),
    CaseRange.mk 0x018E 0x018E (79),
    CaseRange.mk 0x018F 0x018F (202),
    CaseRange.mk 0x0190 0x0190 (203),
    CaseRange.mk 0x0191 0x0191 (1),
    CaseRange.mk 0x0193 0x0193 (205),
    CaseRange.mk 0x0194 0x0194 (207),
    CaseRange.mk 0x0196 0x0196 (211),
    CaseRange.mk 0x0197 0x0197 (209),
    CaseRange.mk 0x0198 0x0198 (1),
    CaseRange.mk 0x019C 0x019C (211),
    CaseRange.mk 0x019D 0x019D (213),
    CaseRange.mk 0x019F 0x019F (214),
    CaseRange.mk 0x01A0 0x01A5 UpperLower,
    CaseRange.mk 0x01A6 0x01A6 (218),
    CaseRange.mk 0x01A7 0x01A7 (1),
    CaseRange.mk 0x01A9 0x01A9 (218),
    CaseRange.mk 0x01AC 0x01AC (1),
    CaseRange.mk 0x01AE 0x01AE (218),
    CaseRange.mk 0x01AF 0x01AF (1),
    CaseRange.mk 0x01B1 0x01B2 (217),
    CaseRange.mk 0x01B3 0x01B6 UpperLower,
    CaseRange.mk 0x01B7 0x01B7 (219),
    CaseRange.mk 0x01B8 0x01B8 (1),
    CaseRange.mk 0x01BC 0x01BC (1),
    CaseRange.mk 0x01C4 0x01C4 (2),
    CaseRange.mk 0x01C5 0x01C5 (1),
    CaseRange.mk 0x01C7 0x01C7 (2),
    CaseRange.mk 0x01C8 0x01C8 (1),
    CaseRange.mk 0x01CA 0x01CA (2),
    CaseRange.mk 0x01CB 0x01CB (1),
    CaseRange.mk 0x01CD 0x01DC UpperLower,
    CaseRange.mk 0x01DE 0x01EF UpperLower,
    CaseRange.mk 0x01F1 0x01F1 (2),
    CaseRange.mk 0x01F2 0x01F2 (1),
    CaseRange.mk 0x01F4 0x01F4 (1),
    CaseRange.mk 0x01F6 0x01F6 (-97),
    CaseRange.mk 0x01F7 0x01F7 (-56),
    CaseRange.mk 0x01F8 0x021F UpperLower,
    CaseRange.mk 0x0220 0x0220 (-130),
    CaseRange.mk 0x0222 0x0233 UpperLower,
    CaseRange.mk 0x023A 0x023A (10795),
    CaseRange.mk 0x023B 0x023B (1),
    CaseRange.mk 0x023D 0x023D (-163),
    CaseRange.mk 0x023E 0x023E (10792),
    CaseRange.mk 0x0241 0x0241 (1),
    CaseRange.mk 0x0243 0x0243 (-195),
    CaseRange.mk 0x0244 0x0244 (69),
    CaseRange.mk 0x0245 0x0245 (71),
    CaseRange.mk 0x0246 0x024F UpperLower,
    CaseRange.mk 0x0370 0x0373 UpperLower,
    CaseRange.mk 0x0376 0x0376 (1),
    CaseRange.mk 0x037F 0x037F (116),
    CaseRange.mk 0x0386 0x0386 (38),
    CaseRange.mk 0x0388 0x038A (37),
    CaseRange.mk 0x038C 0x038C (64),
    CaseRange.mk 0x038E 0x038F (63),
    CaseRange.mk 0x0391 0x03A1 (32),
    CaseRange.mk 0x03A3 0x03AB (32),
    CaseRange.mk 0x03CF 0x03CF (8),
    CaseRange.mk 0x03D8 0x03EF UpperLower,
    CaseRange.mk 0x03F4 0x03F4 (-60),
    CaseRange.mk 0x03F7 0x03F7 (1),
    CaseRange.mk 0x03F9 0x03F9 (-7),
    CaseRange.mk 0x03FA 0x03FA (1),
    CaseRange.mk 0x03FD 0x03FF (-130),
    CaseRange.mk 0x0400 0x040F (80),
    CaseRange.mk 0x0410 0x042F (32),
    CaseRange.mk 0x0460 0x0481 UpperLower,
    CaseRange.mk 0x048A 0x04BF UpperLower,
    CaseRange.mk 0x04C0 0x04C0 (15),
    CaseRange.mk 0x04C1 0x04CE UpperLower,
    CaseRange.mk 0x04D0 0x052F UpperLower,
    CaseRange.mk 0x0531 0x0556 (48),
    CaseRange.mk 0x10A0 0x10C5 (7264),
    CaseRange.mk 0x10C7 0x10C7 (7264),
    CaseRange.mk 0x10CD 0x10CD (7264),
    CaseRange.mk 0x13A0 0x13EF (38864),
    CaseRange.mk 0x13F0 0x13F5 (8),
    CaseRange.mk 0x1C90 0x1CBA (-3008),
    CaseRange.mk 0x1CBD 0x1CBF (-3008),
    CaseRange.mk 0x1E00 0x1E95 UpperLower,
    CaseRange.mk 0x1E9E 0x1E9E (-7615),
    CaseRange.mk 0x1EA0 0x1EFF UpperLower,
    CaseRange.mk 0x1F08 0x1F0F (-8),
    CaseRange.mk 0x1F18 0x1F1D (-8),
    CaseRange.mk 0x1F28 0x1F2F (-8),
    CaseRange.mk 0x1F38 0x1F3F (-8),
    CaseRange.mk 0x1F48 0x1F4D (-8),
    CaseRange.mk 0x1F59 0x1F59 (-8),
    CaseRange.mk 0x1F5B 0x1F5B (-8),
    CaseRange.mk 0x1F5D 0x1F5D (-8),
    CaseRange.mk 0x1F5F 0x1F5F (-8),
    CaseRange.mk 0x1F68 0x1F6F (-8),
    CaseRange.mk 0x1F88 0x1F8F (-8),
    CaseRange.mk 0x1F98 0x1F9F (-8),
    CaseRange.mk 0x1FA8 0x1FAF (-8),
    CaseRange.mk 0x1FB8 0x1FB9 (-8),
    CaseRange.mk 0x1FBA 0x1FBB (-74),
    CaseRange.mk 0x1FBC 0x1FBC (-9),
    CaseRange.mk 0x1FC8 0x1FCB (-86),
    CaseRange.mk 0x1FCC 0x1FCC (-9),
    CaseRange.mk 0x1FD8 0x1FD9 (-8),
    CaseRange.mk 0x1FDA 0x1FDB (-100),
    CaseRange.mk 0x1FE8 0x1FE9 (-8),
    CaseRange.mk 0x1FEA 0x1FEB (-112),
    CaseRange.mk 0x1FEC 0x1FEC (-7),
    CaseRange.mk 0x1FF8 0x1FF9 (-128),
    CaseRange.mk 0x1FFA 0x1FFB (-126),
    CaseRange.mk 0x1FFC 0x1FFC (-9),
    CaseRange.mk 0x2126 0x2126 (-7517),
    CaseRange.mk 0x212A 0x212A (-8383),
    CaseRange.mk 0x212B 0x212B (-8262),
    CaseRange.mk 0x2132 0x2132 (28),
    CaseRange.mk 0x2160 0x216F (16),
    CaseRange.mk 0x2183 0x2183 (1),
    CaseRange.mk 0x24B6 0x24CF (26),
    CaseRange.mk 0x2C00 0x2C2F (48),
    CaseRange.mk 0x2C60 0x2C60 (1),
    CaseRange.mk 0x2C62 0x2C62 (-10743),
    CaseRange.mk 0x2C63 0x2C63 (-3814),
    CaseRange.mk 0x2C64 0x2C64 (-10727),
    CaseRange.mk 0x2C67 0x2C6C UpperLower,
    CaseRange.mk 0x2C6D 0x2C6D (-10780),
    CaseRange.mk 0x2C6E 0x2C6E (-10749),
    CaseRange.mk 0x2C6F 0x2C6F (-10783),
    CaseRange.mk 0x2C70 0x2C70 (-10782),
    CaseRange.mk 0x2C72 0x2C72 (1),
    CaseRange.mk 0x2C75 0x2C75 (1),
    CaseRange.mk 0x2C7E 0x2C7F (-10815),
    CaseRange.mk 0x2C80 0x2CE3 UpperLower,
    CaseRange.mk 0x2CEB 0x2CEE UpperLower,
    CaseRange.mk 0x2CF2 0x2CF2 (1),
    CaseRange.mk 0xA640 0xA66D UpperLower,
    CaseRange.mk 0xA680 0xA69B UpperLower,
    CaseRange.mk 0xA722 0xA72F UpperLower,
    CaseRange.mk 0xA732 0xA76F UpperLower,
    CaseRange.mk 0xA779 0xA77C UpperLower,
    CaseRange.mk 0xA77D 0xA77D (-35332),
    CaseRange.mk 0xA77E 0xA787 UpperLower,
    CaseRange.mk 0xA78B 0xA78B (1),
    CaseRange.mk 0xA78D 0xA78D (-42280),
    CaseRange.mk 0xA790 0xA793 UpperLower,
    CaseRange.mk 0xA796 0xA7A9 UpperLower,
    CaseRange.mk 0xA7AA 0xA7AA (-42308),
    CaseRange.mk 0xA7AB 0xA7AB (-42319),
    CaseRange.mk 0xA7AC 0xA7AC (-42315),
    CaseRange.mk 0xA7AD 0xA7AD (-42305),
    CaseRange.mk 0xA7AE 0xA7AE (-42308),
    CaseRange.mk 0xA7B0 0xA7B0 (-42258),
    CaseRange.mk 0xA7B1 0xA7B1 (-42282),
    CaseRange.mk 0xA7B2 0xA7B2 (-42261),
    CaseRange.mk 0xA7B3 0xA7B3 (928),
    CaseRange.mk 0xA7B4 0xA7C3 UpperLower,
    CaseRange.mk 0xA7C4 0xA7C4 (-48),
    CaseRange.mk 0xA7C5 0xA7C5 (-42307),
    CaseRange.mk 0xA7C6 0xA7C6 (-35384),
    CaseRange.mk 0xA7C7 0xA7CA UpperLower,
    CaseRange.mk 0xA7D0 0xA7D0 (1),
    CaseRange.mk 0xA7D6 0xA7D9 UpperLower,
    CaseRange.mk 0xA7F5 0xA7F5 (1),
    CaseRange.mk 0xFF21 0xFF3A (32),
    CaseRange.mk 0x10400 0x10427 (40),
    CaseRange.mk 0x104B0 0x104D3 (40),
    CaseRange.mk 0x10570 0x1057A (39),
    CaseRange.mk 0x1057C 0x1058A (39),
    CaseRange.mk 0x1058C 0x10592 (39),
    CaseRange.mk 0x10594 0x10595 (39),
    CaseRange.mk 0x10C80 0x10CB2 (64),
    CaseRange.mk 0x118A0 0x118BF (32),
    CaseRange.mk 0x16E40 0x16E5F (32),
    CaseRange.mk 0x1E900 0x1E921 (34)
  ]

/-- The library function `unicode.ToLower`. -/
def unicodeToLower (r : Nat) : Nat := toLowerRune caseRanges r

/-- The Unicode path of `strings.ToLower`: `strings.Map(unicode.ToLower, s)`. -/
def mapToLower (s : GoString) : GoString := stringsMap unicodeToLower s

/-- The library function `strings.ToLower`, both paths. -/
def stringsToLower (s : GoString) : GoString := ToLower mapToLower s

/-- The entries of a case table are in increasing order and share no rune:
each ends below the start of the next. -/
def sortedDisjoint : List CaseRange → Bool
  | a :: b :: rest => decide (a.Hi < b.Lo) && sortedDisjoint (b :: rest)
  | _ => true

/-- No rune of `ilo..ihi` is one of `'A'..'Z'` or held by an entry of the table. -/
def imageClear (ilo ihi : Nat) (caseRange : List CaseRange) : Bool :=
  decide (ihi < 65 ∨ 90 < ilo) &&
  caseRange.all (fun o => decide (ihi < o.Lo ∨ o.Hi < ilo))

/-- A sufficient check on one entry of a case table for lowering to be idempotent: the
entry lies above ASCII, and either alternates and ends on a lower-case letter, or
shifts its runes onto runes that `unicode.ToLower` leaves unchanged. -/
def caseRangeOk (caseRange : List CaseRange) (cr : CaseRange) : Bool :=
  decide (127 < cr.Lo ∧ cr.Lo ≤ cr.Hi) &&
  (if cr.lowerDelta > (MaxRune : Int) then decide ((cr.Hi - cr.Lo) % 2 = 1)
   else
    decide (0 ≤ (cr.Lo : Int) + cr.lowerDelta) &&
    imageClear ((cr.Lo : Int) + cr.lowerDelta).toNat ((cr.Hi : Int) + cr.lowerDelta).toNat
      caseRange)

/-- The check on a whole case table. -/
def caseTableOk (caseRange : List CaseRange) : Bool :=
  sortedDisjoint caseRange && caseRange.all (caseRangeOk caseRange)

/-! ## Sorting -/

/-- Inner loop of the insertion sort behind `sort.Strings` (the algorithm it runs on a
slice of fewer than 12 elements): `x = data[j]` is swapped leftwards while it is less
than its left neighbour. The argument is `data[0..j)` from right to left, and so is the
result. -/
def siftLeft (x : GoString) : List GoString → List GoString
  | [] => [x]
  | p :: ps => if strLess x p then p :: siftLeft x ps else x :: p :: ps

/-- The library function `sort.Strings` on a short slice: insertion sort, elements taken
in index order. -/
def sortStrings (data : List GoString) : List GoString :=
  (data.foldl (fun sortedRev x => siftLeft x sortedRev) []).reverse

/-! ## Topic naming (`VideoConnections`, lines 79-83) -/

/-- The value of `userID` in `VideoConnections`: the query parameter, lowered. -/
def sessionUserID (mapLower : GoString → GoString) (userIDParam : GoString) : GoString :=
  ToLower mapLower userIDParam

/-- The slice `peers` of `VideoConnections` after `sort.Strings(peers)`. -/
def sortedPeers (mapLower : GoString → GoString) (userIDParam peerIDParam : GoString) :
    List GoString :=
  let userID := ToLower mapLower userIDParam
  let peerID := ToLower mapLower peerIDParam
  sortStrings [userID, peerID]

/-- The value of `topicName` in `VideoConnections`, from the query parameters `userID`
and `peerID`: `fmt.Sprintf("video-%s-%s", peers[0], peers[1])` on the sorted slice. -/
def topicName (mapLower : GoString → GoString) (userIDParam peerIDParam : GoString) :
    GoString :=
  let peers := sortedPeers mapLower userIDParam peerIDParam
  lit "video-" ++ peers.getD 0 [] ++ lit "-" ++ peers.getD 1 []

/-! ## Messages, events and outcomes -/

/-- The fields of `nats.Msg` that the relay sets and reads. -/
structure Msg where
  Subject : GoString
  Reply : GoString
  Data : GoString
deriving DecidableEq, Repr

/-- What `ws.Read(ctx)` returns: a message, or an error. -/
inductive ReadResult where
  | ok (message : GoString)
  | err (e : GoString)
deriving DecidableEq, Repr

/-- One call into the outside world, with the outcome it had. An error is `some e`. -/
inductive Event where
  | wsRead (r : ReadResult)
  | publishMsg (m : Msg) (err : Option GoString)
  | ack
  | wsWrite (data : GoString) (err : Option GoString)
  | wsClose (err : Option GoString)
  | cancelFunc
  | logPrintf (text : GoString)
  | logFatal (text : GoString)
  | subscribe (topic : GoString) (err : Option GoString)
  | goWsLoop (topic userID : GoString)
deriving DecidableEq, Repr

/-- How a call of a Go function without result values ends. -/
inductive Outcome where
  | returned
  | panicked (err : GoString)
  | exited (code : Nat)
deriving DecidableEq, Repr

/-- How the `for` loop of `wsLoop` is left: by `break` (read error), by `return`
(publish error), or not yet, the pump being suspended in `ws.Read`. -/
inductive LoopExit where
  | broke
  | returned
  | suspended
deriving DecidableEq, Repr

/-! ## The inbound pump (`wsLoop`, `closeWS`) -/

/-- The function `closeWS`: one `ws.Close`, its error logged. -/
def closeWS (closeErr : Option GoString) : List Event :=
  Event.wsClose closeErr ::
    match closeErr with
    | some e => [Event.logPrintf (lit "Error closing: " ++ e)]
    | none => []

/-- The `for` loop of `wsLoop`. `reads` holds the results of the successive `ws.Read`
calls, `publishErr k` the result of the `k`-th `PublishMsg` call counted from the
current iteration. When `reads` is used up the pump is suspended in the next read. -/
def wsLoopFor (topic userID : GoString) :
    (Nat → Option GoString) → List ReadResult → List Event × LoopExit
  | _, [] => ([], LoopExit.suspended)
  | _, ReadResult.err e :: _ =>
      ([Event.wsRead (ReadResult.err e),
        Event.logPrintf (lit "Error reading message " ++ e)], LoopExit.broke)
  | publishErr, ReadResult.ok message :: rest =>
      let msg : Msg := { Subject := topic, Data := message, Reply := userID }
      match publishErr 0 with
      | some e =>
          ([Event.wsRead (ReadResult.ok message), Event.publishMsg msg (some e),
            Event.logPrintf (lit "Could not publish message: " ++ e)], LoopExit.returned)
      | none =>
          let r := wsLoopFor topic userID (fun k => publishErr (k + 1)) rest
          (Event.wsRead (ReadResult.ok message) :: Event.publishMsg msg none :: r.1, r.2)

/-- The function `wsLoop`: the loop, then `cancelFunc()` when the loop was left by
`break`, then the deferred `closeWS(ws)` on every way out of the function. -/
def wsLoop (topic userID : GoString) (publishErr : Nat → Option GoString)
    (reads : List ReadResult) (closeErr : Option GoString) : List Event :=
  match wsLoopFor topic userID publishErr reads with
  | (evs, LoopExit.broke) => evs ++ [Event.cancelFunc] ++ closeWS closeErr
  | (evs, LoopExit.returned) => evs ++ closeWS closeErr
  | (evs, LoopExit.suspended) => evs

/-- The exit of the loop of `wsLoop` on the given inputs. -/
def wsLoopExit (topic userID : GoString) (publishErr : Nat → Option GoString)
    (reads : List ReadResult) : LoopExit :=
  (wsLoopFor topic userID publishErr reads).2

/-! ## The outbound relay (`natsConnLoop`) and session creation -/

/-- The callback that `natsConnLoop` hands to `Subscribe`, run on a delivered message
`m`; `writeErr` is what `ws.Write` returns if it is called. -/
def relayCallback (userID : GoString) (m : Msg) (writeErr : Option GoString) :
    List Event :=
  Event.ack ::
    if m.Reply = userID then []
    else
      Event.wsWrite m.Data writeErr ::
        match writeErr with
        | some e =>
            [Event.logPrintf
              (lit "Error writing message to " ++ userID ++ lit ": " ++ e)]
        | none => []

/-- A registration held by the bus client: the topic, and the `userID` captured by the
callback closure (which also captures the session's connection). -/
structure Subscription where
  topic : GoString
  userID : GoString
deriving DecidableEq, Repr

/-- One session's connection seen from outside, and the bus client: the registrations
the bus client holds and the trace of calls so far. -/
structure World where
  subs : List Subscription
  trace : List Event
deriving DecidableEq, Repr

/-- Append events to the trace. -/
def World.emit (w : World) (evs : List Event) : World :=
  { w with trace := w.trace ++ evs }

/-- The function `natsConnLoop`: `Subscribe(topic, callback)`; the subscription handle
is dropped (`_`), an error is passed to `panic`. -/
def natsConnLoop (topic userID : GoString) (subscribeErr : Option GoString)
    (w : World) : Outcome × World :=
  match subscribeErr with
  | none =>
      (Outcome.returned,
        { subs := w.subs ++ [{ topic := topic, userID := userID }],
          trace := w.trace ++ [Event.subscribe topic none] })
  | some e => (Outcome.panicked e, w.emit [Event.subscribe topic (some e)])

/-- The function `VideoConnections`: `websocket.Accept` (an error goes to `log.Fatal`,
which exits the process with status 1), the topic, `go wsLoop(...)`, then
`natsConnLoop(...)`. -/
def VideoConnections (mapLower : GoString → GoString) (acceptErr : Option GoString)
    (userIDParam peerIDParam : GoString) (subscribeErr : Option GoString) (w : World) :
    Outcome × World :=
  match acceptErr with
  | some e => (Outcome.exited 1, w.emit [Event.logFatal e])
  | none =>
      let userID := sessionUserID mapLower userIDParam
      let topic := topicName mapLower userIDParam peerIDParam
      natsConnLoop topic userID subscribeErr (w.emit [Event.goWsLoop topic userID])

/-- The goroutine started by `go wsLoop(...)`, run up to the end of its inputs. -/
def runWsLoop (topic userID : GoString) (publishErr : Nat → Option GoString)
    (reads : List ReadResult) (closeErr : Option GoString) (w : World) : World :=
  w.emit (wsLoop topic userID publishErr reads closeErr)

/-- The bus delivers `m`: the callback of every registration on `m.Subject` runs. -/
def deliveryEvents (subs : List Subscription) (m : Msg) (writeErr : Option GoString) :
    List Event :=
  (subs.filter (fun s => decide (s.topic = m.Subject))).flatMap
    (fun s => relayCallback s.userID m writeErr)

/-- The bus delivers `m` in world `w`. -/
def deliver (m : Msg) (writeErr : Option GoString) (w : World) : World :=
  w.emit (deliveryEvents w.subs m writeErr)

/-! ## Observations on traces -/

/-- The payloads passed to `ws.Write`, in order. -/
def writeAttempts (evs : List Event) : List GoString :=
  evs.filterMap (fun e => match e with
    | Event.wsWrite data _ => some data
    | _ => none)

/-- The messages passed to `PublishMsg`, in order. -/
def published (evs : List Event) : List Msg :=
  evs.filterMap (fun e => match e with
    | Event.publishMsg m _ => some m
    | _ => none)

/-- The number of `ws.Close` calls. -/
def closeCount (evs : List Event) : Nat :=
  evs.countP (fun e => match e with
    | Event.wsClose _ => true
    | _ => false)

/-- The number of `cancelFunc()` calls. -/
def cancelCount (evs : List Event) : Nat :=
  evs.countP (fun e => match e with
    | Event.cancelFunc => true
    | _ => false)

/-- A read or a publish that returned an error. -/
def Event.isFailure : Event → Bool
  | Event.wsRead (ReadResult.err _) => true
  | Event.publishMsg _ (some _) => true
  | _ => false

/-- A read or a publish. -/
def Event.isReadOrPublish : Event → Bool
  | Event.wsRead _ => true
  | Event.publishMsg _ _ => true
  | _ => false

/-- A panic outcome. -/
def Outcome.isPanic : Outcome → Bool
  | Outcome.panicked _ => true
  | _ => false

/-! ## The pump's output as the specification words it -/

/-- The payloads of the successful reads that precede the first read failure. -/
def readsBeforeFailure : List ReadResult → List GoString
  | ReadResult.ok message :: rest => message :: readsBeforeFailure rest
  | _ => []

/-- The index of the first failing publish among the first `n`, if there is one. -/
def firstPublishFailure (publishErr : Nat → Option GoString) (n : Nat) : Option Nat :=
  (List.range n).find? (fun k => (publishErr k).isSome)

/-- The payloads the specification has the pump hand to the bus: those read before the
first read failure, cut after the one whose publish fails. -/
def specPayloads (publishErr : Nat → Option GoString) (reads : List ReadResult) :
    List GoString :=
  let ps := readsBeforeFailure reads
  match firstPublishFailure publishErr ps.length with
  | some k => ps.take (k + 1)
  | none => ps

/-- The messages the specification has the pump hand to the bus. -/
def specPublished (topic userID : GoString) (publishErr : Nat → Option GoString)
    (reads : List ReadResult) : List Msg :=
  (specPayloads publishErr reads).map
    (fun p => { Subject := topic, Reply := userID, Data := p })

/-- After the first read or publish that failed, the trace holds no read and no
publish. -/
def quietAfterFailure : List Event → Bool
  | [] => true
  | e :: rest =>
      if e.isFailure then rest.all (fun x => !x.isReadOrPublish)
      else quietAfterFailure rest

/-! ## Sessions used as concrete inputs -/

/-- The world before any session exists. -/
def emptyWorld : World := { subs := [], trace := [] }

/-- The topic of the pair alice, bob. -/
def aliceBobTopic : GoString := lit "video-alice-bob"

/-- Alice's session right after a successful `VideoConnections` call with
`userID=alice`, `peerID=bob`. -/
def aliceOpen : World :=
  (VideoConnections id none (lit "alice") (lit "bob") none emptyWorld).2

/-- Alice's session after its pump met a read failure on its first read. -/
def aliceAfterReadFailure : World :=
  runWsLoop aliceBobTopic (lit "alice") (fun _ => none)
    [ReadResult.err (lit "EOF")] none aliceOpen

/-- Bob's message `"offer"` on the shared topic. -/
def offerFromBob : Msg :=
  { Subject := aliceBobTopic, Reply := lit "bob", Data := lit "offer" }

/-- Alice's message `"offer"` on the shared topic. -/
def offerFromAlice : Msg :=
  { Subject := aliceBobTopic, Reply := lit "alice", Data := lit "offer" }

/-- Bob's message `"answer"` on the shared topic. -/
def answerFromBob : Msg :=
  { Subject := aliceBobTopic, Reply := lit "bob", Data := lit "answer" }

/-- Alice's session after the delivery of `offerFromBob` met a write failure. -/
def aliceAfterWriteFailure : World :=
  deliver offerFromBob (some (lit "broken pipe")) aliceOpen

/-- The unordered pairs `{a, b}` and `{c, d}` are equal. -/
@[reducible] def SamePair (a b c d : GoString) : Prop :=
  (a = c ∧ b = d) ∨ (a = d ∧ b = c)

/-! ## Lemmas on Go strings -/

theorem strLess_irrefl (a : GoString) : strLess a a = false := by
  induction a with
  | nil => rfl
  | cons x xs ih => simp [strLess, ih]

theorem strLess_asymm : ∀ a b : GoString, strLess a b = true → strLess b a = false
  | [], [], h => by simp [strLess] at h
  | [], _ :: _, _ => by simp [strLess]
  | _ :: _, [], h => by simp [strLess] at h
  | x :: xs, y :: ys, h => by
      rcases Nat.lt_trichotomy x y with hxy | hxy | hxy
      · have h1 : ¬ y < x := by omega
        simp [strLess, hxy, h1]
      · subst hxy
        simp [strLess] at h ⊢
        exact strLess_asymm xs ys h
      · have h1 : ¬ x < y := by omega
        simp [strLess, hxy, h1] at h

theorem strLess_connex : ∀ a b : GoString, strLess a b = false → strLess b a = false → a = b
  | [], [], _, _ => rfl
  | [], _ :: _, h, _ => by simp [strLess] at h
  | _ :: _, [], _, h => by simp [strLess] at h
  | x :: xs, y :: ys, h1, h2 => by
      rcases Nat.lt_trichotomy x y with hxy | hxy | hxy
      · simp [strLess, hxy] at h1
      · subst hxy
        simp [strLess] at h1 h2
        rw [strLess_connex xs ys h1 h2]
      · simp [strLess, hxy] at h2

/-- Go's string `<` is the lexicographic order on byte sequences. -/
theorem strLess_iff_lex : ∀ a b : GoString,
    strLess a b = true ↔ List.Lex (fun x y : Nat => x < y) a b
  | [], [] => by simp [strLess]
  | [], _ :: _ => by simp [strLess, List.Lex.nil]
  | _ :: _, [] => by simp [strLess]
  | x :: xs, y :: ys => by
      rcases Nat.lt_trichotomy x y with hxy | hxy | hxy
      · simp [strLess, hxy, List.Lex.rel hxy]
      · subst hxy
        simp [strLess, strLess_iff_lex xs ys, List.Lex.cons_iff]
      · have h1 : ¬ x < y := by omega
        have h2 : x ≠ y := by omega
        simp only [strLess, h1, hxy, if_false, if_true]
        constructor
        · intro h; cases h
        · intro h
          cases h with
          | cons h => exact absurd rfl h2
          | rel h => exact absurd h h1

theorem sortStrings_pair (a b : GoString) :
    sortStrings [a, b] = if strLess b a then [b, a] else [a, b] := by
  by_cases h : strLess b a = true <;> simp [sortStrings, siftLeft, h]

theorem sortedPeers_eq (f : GoString → GoString) (A B : GoString) :
    sortedPeers f A B =
      if strLess (ToLower f B) (ToLower f A) then [ToLower f B, ToLower f A]
      else [ToLower f A, ToLower f B] := by
  simp only [sortedPeers, sortStrings_pair]

theorem sortedPeers_comm (f : GoString → GoString) (A B : GoString) :
    sortedPeers f A B = sortedPeers f B A := by
  rw [sortedPeers_eq, sortedPeers_eq]
  by_cases h1 : strLess (ToLower f B) (ToLower f A) = true
  · have h2 := strLess_asymm _ _ h1
    simp [h1, h2]
  · by_cases h2 : strLess (ToLower f A) (ToLower f B) = true
    · simp [h1, h2]
    · have h1f : strLess (ToLower f B) (ToLower f A) = false := by simpa using h1
      have h2f : strLess (ToLower f A) (ToLower f B) = false := by simpa using h2
      have := strLess_connex _ _ h1f h2f
      simp [h1f, h2f, this]

theorem isASCII_map_toLowerByte (s : GoString) (h : isASCII s = true) :
    isASCII (s.map toLowerByte) = true := by
  induction s with
  | nil => rfl
  | cons c cs ih =>
      simp only [isASCII, List.all_cons, List.map_cons, Bool.and_eq_true,
        decide_eq_true_eq] at h ⊢
      refine ⟨?_, ?_⟩
      · unfold toLowerByte
        split <;> omega
      · exact ih h.2

theorem hasUpper_map_toLowerByte (s : GoString) :
    hasUpper (s.map toLowerByte) = false := by
  induction s with
  | nil => rfl
  | cons c cs ih =>
      simp only [hasUpper, List.any_cons, List.map_cons, Bool.or_eq_false_iff,
        decide_eq_false_iff_not] at ih ⊢
      refine ⟨?_, ih⟩
      unfold toLowerByte
      split <;> omega

/-- On ASCII input `strings.ToLower` returns a string it leaves unchanged. -/
theorem ToLower_idem_ascii (f : GoString → GoString) (s : GoString)
    (h : isASCII s = true) : ToLower f (ToLower f s) = ToLower f s := by
  by_cases hu : hasUpper s = true
  · have e : ToLower f s = s.map toLowerByte := by simp [ToLower, h, hu]
    rw [e]
    simp [ToLower, isASCII_map_toLowerByte s h, hasUpper_map_toLowerByte]
  · have e : ToLower f s = s := by simp [ToLower, h, hu]
    rw [e, e]

/-- When the Unicode path returns strings that `strings.ToLower` leaves unchanged,
`strings.ToLower` is idempotent. -/
theorem ToLower_idem (f : GoString → GoString)
    (hf : ∀ s, isASCII s = false → ToLower f (f s) = f s) (s : GoString) :
    ToLower f (ToLower f s) = ToLower f s := by
  by_cases h : isASCII s = true
  · exact ToLower_idem_ascii f s h
  · have h2 : isASCII s = false := by simpa using h
    have e : ToLower f s = f s := by simp [ToLower, h2]
    rw [e]
    exact hf s h2

theorem append_sep_inj_left (c : Nat) : ∀ (l₁ l₂ r₁ r₂ : List Nat),
    c ∉ l₁ → c ∉ l₂ → l₁ ++ c :: r₁ = l₂ ++ c :: r₂ → l₁ = l₂ ∧ r₁ = r₂
  | [], [], _, _, _, _, h => by simpa using h
  | [], y :: ys, _, _, _, h2, h => by
      simp only [List.nil_append, List.cons_append, List.cons.injEq] at h
      exact absurd (h.1 ▸ List.mem_cons_self _ _) h2
  | x :: xs, [], _, _, h1, _, h => by
      simp only [List.nil_append, List.cons_append, List.cons.injEq] at h
      exact absurd (h.1 ▸ List.mem_cons_self _ _) h1
  | x :: xs, y :: ys, r₁, r₂, h1, h2, h => by
      simp only [List.cons_append, List.cons.injEq] at h
      have := append_sep_inj_left c xs ys r₁ r₂
        (fun hm => h1 (List.mem_cons_of_mem _ hm))
        (fun hm => h2 (List.mem_cons_of_mem _ hm)) h.2
      exact ⟨by rw [h.1, this.1], this.2⟩

theorem append_sep_inj_right (c : Nat) (l₁ l₂ r₁ r₂ : List Nat)
    (h1 : c ∉ r₁) (h2 : c ∉ r₂) (h : l₁ ++ c :: r₁ = l₂ ++ c :: r₂) :
    l₁ = l₂ ∧ r₁ = r₂ := by
  have hr := congrArg List.reverse h
  simp only [List.reverse_append, List.reverse_cons, List.append_assoc,
    List.singleton_append] at hr
  have := append_sep_inj_left c r₁.reverse r₂.reverse l₁.reverse l₂.reverse
    (by simpa using h1) (by simpa using h2) hr
  exact ⟨List.reverse_injective this.2, List.reverse_injective this.1⟩

theorem topicName_eq (f : GoString → GoString) (A B : GoString) :
    topicName f A B =
      lit "video-" ++ ((sortedPeers f A B).getD 0 [] ++ 45 :: (sortedPeers f A B).getD 1 []) := by
  have h : lit "-" = [45] := rfl
  simp only [topicName, h, List.append_assoc, List.singleton_append]

theorem sortedPeers_cases (f : GoString → GoString) (A B : GoString) :
    (sortedPeers f A B = [ToLower f A, ToLower f B] ∧
        strLess (ToLower f B) (ToLower f A) = false) ∨
    (sortedPeers f A B = [ToLower f B, ToLower f A] ∧
        strLess (ToLower f A) (ToLower f B) = false) := by
  rw [sortedPeers_eq]
  by_cases h : strLess (ToLower f B) (ToLower f A) = true
  · right
    simp [h, strLess_asymm _ _ h]
  · left
    have hf : strLess (ToLower f B) (ToLower f A) = false := by simpa using h
    simp [hf]

/-- On ASCII identifiers the topic is case-insensitive whatever the Unicode path does. -/
theorem topicName_lower_ascii (f : GoString → GoString) (A B : GoString)
    (hA : isASCII A = true) (hB : isASCII B = true) :
    topicName f A B = topicName f (ToLower f A) (ToLower f B) := by
  simp only [topicName, sortedPeers, ToLower_idem_ascii f A hA, ToLower_idem_ascii f B hB]

/-! ## Lemmas on the case table -/

theorem sortedDisjoint_pairwise : ∀ (tbl : List CaseRange),
    sortedDisjoint tbl = true → (∀ cr ∈ tbl, cr.Lo ≤ cr.Hi) →
    tbl.Pairwise (fun a b => a.Hi < b.Lo)
  | [], _, _ => List.Pairwise.nil
  | [_], _, _ => List.pairwise_singleton _ _
  | a :: b :: rest, h, hle => by
      simp only [sortedDisjoint, Bool.and_eq_true, decide_eq_true_eq] at h
      have ih := sortedDisjoint_pairwise (b :: rest) h.2
        (fun cr hcr => hle cr (List.mem_cons_of_mem _ hcr))
      refine List.Pairwise.cons ?_ ih
      intro c hc
      rcases List.mem_cons.mp hc with hcb | hcr
      · rw [hcb]; exact h.1
      · have h1 := List.rel_of_pairwise_cons ih hcr
        have h2 := hle b (List.mem_cons_of_mem _ (List.mem_cons_self _ _))
        omega

theorem caseRange_unique (tbl : List CaseRange)
    (hp : tbl.Pairwise (fun a b => a.Hi < b.Lo)) (cr o : CaseRange)
    (hcr : cr ∈ tbl) (ho : o ∈ tbl) (x : Nat)
    (h1 : cr.Lo ≤ x ∧ x ≤ cr.Hi) (h2 : o.Lo ≤ x ∧ x ≤ o.Hi) : o = cr := by
  by_contra hne
  have hs : tbl.Pairwise (fun a b : CaseRange => a.Hi < b.Lo ∨ b.Hi < a.Lo) :=
    hp.imp (fun h => Or.inl h)
  have := hs.forall (fun a b h => h.symm) ho hcr hne
  omega

theorem find?_eq_some_of_unique {α : Type} (p : α → Bool) (l : List α) (a : α)
    (ha : a ∈ l) (hpa : p a = true) (hu : ∀ b ∈ l, p b = true → b = a) :
    l.find? p = some a := by
  cases h : l.find? p with
  | none =>
      have := List.find?_eq_none.mp h a ha
      simp [hpa] at this
  | some b =>
      have hb := List.mem_of_find?_eq_some h
      have hpb := List.find?_some h
      rw [hu b hb hpb]

theorem toLowerRune_ascii (tbl : List CaseRange) (r : Nat) (hr : r ≤ 127) :
    toLowerRune tbl r = if 65 ≤ r ∧ r ≤ 90 then r + 32 else r := by
  unfold toLowerRune
  rw [if_pos hr]

theorem toLowerRune_of_find_none (tbl : List CaseRange) (r : Nat) (hr : ¬ r ≤ 127)
    (hfind : tbl.find? (fun cr => decide (cr.Lo ≤ r ∧ r ≤ cr.Hi)) = none) :
    toLowerRune tbl r = r := by
  unfold toLowerRune
  rw [if_neg hr, hfind]

theorem toLowerRune_of_find_some (tbl : List CaseRange) (r : Nat) (hr : ¬ r ≤ 127)
    (cr : CaseRange)
    (hfind : tbl.find? (fun cr => decide (cr.Lo ≤ r ∧ r ≤ cr.Hi)) = some cr) :
    toLowerRune tbl r =
      if cr.lowerDelta > (MaxRune : Int) then cr.Lo + ((r - cr.Lo) / 2 * 2 + 1)
      else ((r : Int) + cr.lowerDelta).toNat := by
  unfold toLowerRune
  rw [if_neg hr, hfind]

/-- A case table that passes the check lowers every rune to a rune it leaves
unchanged. -/
theorem toLowerRune_idem (tbl : List CaseRange) (hok : caseTableOk tbl = true) (r : Nat) :
    toLowerRune tbl (toLowerRune tbl r) = toLowerRune tbl r := by
  simp only [caseTableOk, Bool.and_eq_true, List.all_eq_true] at hok
  obtain ⟨hsorted, hall⟩ := hok
  by_cases hr : r ≤ 127
  · by_cases hu : 65 ≤ r ∧ r ≤ 90
    · have e : toLowerRune tbl r = r + 32 := by
        rw [toLowerRune_ascii tbl r hr, if_pos hu]
      rw [e]
      have h1 : r + 32 ≤ 127 := by omega
      have h2 : ¬ (65 ≤ r + 32 ∧ r + 32 ≤ 90) := by omega
      rw [toLowerRune_ascii tbl _ h1, if_neg h2]
    · have e : toLowerRune tbl r = r := by
        rw [toLowerRune_ascii tbl r hr, if_neg hu]
      rw [e, e]
  · cases hfind : tbl.find? (fun cr => decide (cr.Lo ≤ r ∧ r ≤ cr.Hi)) with
    | none =>
        have e := toLowerRune_of_find_none tbl r hr hfind
        rw [e, e]
    | some cr =>
        have hmem := List.mem_of_find?_eq_some hfind
        have hin : cr.Lo ≤ r ∧ r ≤ cr.Hi := by
          simpa using List.find?_some hfind
        have hcr := hall cr hmem
        simp only [caseRangeOk, Bool.and_eq_true, decide_eq_true_eq] at hcr
        obtain ⟨hbase, hkind⟩ := hcr
        have hle : ∀ o ∈ tbl, o.Lo ≤ o.Hi := by
          intro o ho
          have := hall o ho
          simp only [caseRangeOk, Bool.and_eq_true, decide_eq_true_eq] at this
          exact this.1.2
        have hpw := sortedDisjoint_pairwise tbl hsorted hle
        have e := toLowerRune_of_find_some tbl r hr cr hfind
        by_cases hd : cr.lowerDelta > (MaxRune : Int)
        · rw [if_pos hd] at e
          rw [e]
          rw [if_pos hd, decide_eq_true_eq] at hkind
          have hl : cr.Lo ≤ cr.Lo + ((r - cr.Lo) / 2 * 2 + 1) ∧
              cr.Lo + ((r - cr.Lo) / 2 * 2 + 1) ≤ cr.Hi := by omega
          have hfind2 : tbl.find?
              (fun o => decide (o.Lo ≤ cr.Lo + ((r - cr.Lo) / 2 * 2 + 1) ∧
                cr.Lo + ((r - cr.Lo) / 2 * 2 + 1) ≤ o.Hi)) = some cr := by
            apply find?_eq_some_of_unique _ _ _ hmem (decide_eq_true hl)
            intro o ho hpo
            exact caseRange_unique tbl hpw cr o hmem ho _ hl (of_decide_eq_true hpo)
          have hbig : ¬ (cr.Lo + ((r - cr.Lo) / 2 * 2 + 1) ≤ 127) := by omega
          rw [toLowerRune_of_find_some tbl _ hbig cr hfind2, if_pos hd]
          omega
        · rw [if_neg hd] at e
          rw [e]
          rw [if_neg hd] at hkind
          simp only [Bool.and_eq_true, decide_eq_true_eq, imageClear,
            List.all_eq_true] at hkind
          obtain ⟨hnn, hAZ, hclear⟩ := hkind
          by_cases hsmall : ((r : Int) + cr.lowerDelta).toNat ≤ 127
          · have h2 : ¬ (65 ≤ ((r : Int) + cr.lowerDelta).toNat ∧
                ((r : Int) + cr.lowerDelta).toNat ≤ 90) := by omega
            rw [toLowerRune_ascii tbl _ hsmall, if_neg h2]
          · have hnone : tbl.find?
                (fun o => decide (o.Lo ≤ ((r : Int) + cr.lowerDelta).toNat ∧
                  ((r : Int) + cr.lowerDelta).toNat ≤ o.Hi)) = none := by
              apply List.find?_eq_none.mpr
              intro o ho
              have := hclear o ho
              rw [decide_eq_true_eq]
              omega
            exact toLowerRune_of_find_none tbl _ hsmall hnone

/-! ## Lemmas on UTF-8 and `strings.Map` -/

theorem decodeRune_one (s0 : Nat) (rest : GoString) (h : s0 < 128) :
    decodeRune (s0 :: rest) = (s0, 1) := by
  unfold decodeRune
  dsimp only
  rw [if_pos h]

theorem decodeRune_two (s0 s1 : Nat) (t : GoString) (h0 : 194 ≤ s0 ∧ s0 ≤ 223)
    (h1 : 128 ≤ s1 ∧ s1 ≤ 191) :
    decodeRune (s0 :: s1 :: t) = (s0 % 32 * 64 + s1 % 64, 2) := by
  have hc : isCont s1 = true := decide_eq_true h1
  unfold decodeRune
  dsimp only
  rw [if_neg (by omega), if_pos h0]
  simp only [hc, if_true]

theorem decodeRune_three (s0 s1 s2 : Nat) (t : GoString) (h0 : 224 ≤ s0 ∧ s0 ≤ 239)
    (h1 : acceptLo s0 ≤ s1 ∧ s1 ≤ acceptHi s0) (h2 : 128 ≤ s2 ∧ s2 ≤ 191) :
    decodeRune (s0 :: s1 :: s2 :: t) = (s0 % 16 * 4096 + s1 % 64 * 64 + s2 % 64, 3) := by
  have hc : isCont s2 = true := decide_eq_true h2
  unfold decodeRune
  dsimp only
  rw [if_neg (by omega), if_neg (by omega), if_pos h0]
  simp only [hc, h1, and_self, if_true]

theorem decodeRune_four (s0 s1 s2 s3 : Nat) (t : GoString) (h0 : 240 ≤ s0 ∧ s0 ≤ 244)
    (h1 : acceptLo s0 ≤ s1 ∧ s1 ≤ acceptHi s0) (h2 : 128 ≤ s2 ∧ s2 ≤ 191)
    (h3 : 128 ≤ s3 ∧ s3 ≤ 191) :
    decodeRune (s0 :: s1 :: s2 :: s3 :: t) =
      (s0 % 8 * 262144 + s1 % 64 * 4096 + s2 % 64 * 64 + s3 % 64, 4) := by
  have hc2 : isCont s2 = true := decide_eq_true h2
  have hc3 : isCont s3 = true := decide_eq_true h3
  unfold decodeRune
  dsimp only
  rw [if_neg (by omega), if_neg (by omega), if_neg (by omega), if_pos h0]
  simp only [hc2, hc3, h1, and_self, if_true]

theorem decodeRune_width_pos (b : Nat) (rest : GoString) :
    1 ≤ (decodeRune (b :: rest)).2 := by
  unfold decodeRune
  dsimp only
  repeat' split
  all_goals (dsimp only; omega)

/-- Decoding what `utf8.AppendRune` wrote gives the rune back (`RuneError` for a
surrogate or a value above `MaxRune`) and the number of bytes written. -/
theorem decodeRune_encodeRune (r : Nat) (t : GoString) :
    decodeRune (encodeRune r ++ t) =
      (if r ≤ 1114111 ∧ ¬ (55296 ≤ r ∧ r ≤ 57343) then r else RuneError,
        (encodeRune r).length) := by
  by_cases h1 : r < 128
  · have e : encodeRune r = [r] := by
      unfold encodeRune
      rw [if_pos h1]
    have hv : r ≤ 1114111 ∧ ¬ (55296 ≤ r ∧ r ≤ 57343) := by omega
    rw [e, if_pos hv]
    exact decodeRune_one r t h1
  by_cases h2 : r < 2048
  · have e : encodeRune r = [192 + r / 64, 128 + r % 64] := by
      unfold encodeRune
      rw [if_neg h1, if_pos h2]
    have hv : r ≤ 1114111 ∧ ¬ (55296 ≤ r ∧ r ≤ 57343) := by omega
    have h0 : 194 ≤ 192 + r / 64 ∧ 192 + r / 64 ≤ 223 := by omega
    have hc : 128 ≤ 128 + r % 64 ∧ 128 + r % 64 ≤ 191 := by omega
    rw [e, if_pos hv]
    show decodeRune ((192 + r / 64) :: (128 + r % 64) :: t) = _
    rw [decodeRune_two (192 + r / 64) (128 + r % 64) t h0 hc]
    simp only [Prod.mk.injEq, List.length_cons, List.length_nil, and_true, Nat.zero_add,
      Nat.reduceAdd]
    omega
  by_cases h3 : MaxRune < r ∨ (55296 ≤ r ∧ r ≤ 57343)
  · have e : encodeRune r = [239, 191, 189] := by
      unfold encodeRune
      rw [if_neg h1, if_neg h2, if_pos h3]
    have hv : ¬ (r ≤ 1114111 ∧ ¬ (55296 ≤ r ∧ r ≤ 57343)) := by
      unfold MaxRune at h3
      omega
    rw [e, if_neg hv]
    show decodeRune (239 :: 191 :: 189 :: t) = _
    rw [decodeRune_three 239 191 189 t (by decide) (by decide) (by decide)]
    rfl
  have hv : r ≤ 1114111 ∧ ¬ (55296 ≤ r ∧ r ≤ 57343) := by
    unfold MaxRune at h3
    omega
  by_cases h4 : r < 65536
  · have e : encodeRune r = [224 + r / 4096, 128 + r / 64 % 64, 128 + r % 64] := by
      unfold encodeRune
      rw [if_neg h1, if_neg h2, if_neg h3, if_pos h4]
    rw [e, if_pos hv]
    show decodeRune ((224 + r / 4096) :: (128 + r / 64 % 64) :: (128 + r % 64) :: t) = _
    have h0 : 224 ≤ 224 + r / 4096 ∧ 224 + r / 4096 ≤ 239 := by omega
    have ha : acceptLo (224 + r / 4096) ≤ 128 + r / 64 % 64 ∧
        128 + r / 64 % 64 ≤ acceptHi (224 + r / 4096) := by
      unfold acceptLo acceptHi
      split_ifs <;> omega
    have hc : 128 ≤ 128 + r % 64 ∧ 128 + r % 64 ≤ 191 := by omega
    rw [decodeRune_three (224 + r / 4096) (128 + r / 64 % 64) (128 + r % 64) t h0 ha hc]
    simp only [Prod.mk.injEq, List.length_cons, List.length_nil, and_true, Nat.zero_add,
      Nat.reduceAdd]
    omega
  · have e : encodeRune r =
        [240 + r / 262144, 128 + r / 4096 % 64, 128 + r / 64 % 64, 128 + r % 64] := by
      unfold encodeRune
      rw [if_neg h1, if_neg h2, if_neg h3, if_neg h4]
    rw [e, if_pos hv]
    show decodeRune ((240 + r / 262144) :: (128 + r / 4096 % 64) ::
      (128 + r / 64 % 64) :: (128 + r % 64) :: t) = _
    have h0 : 240 ≤ 240 + r / 262144 ∧ 240 + r / 262144 ≤ 244 := by omega
    have ha : acceptLo (240 + r / 262144) ≤ 128 + r / 4096 % 64 ∧
        128 + r / 4096 % 64 ≤ acceptHi (240 + r / 262144) := by
      unfold acceptLo acceptHi
      split_ifs <;> omega
    have hc2 : 128 ≤ 128 + r / 64 % 64 ∧ 128 + r / 64 % 64 ≤ 191 := by omega
    have hc3 : 128 ≤ 128 + r % 64 ∧ 128 + r % 64 ≤ 191 := by omega
    rw [decodeRune_four (240 + r / 262144) (128 + r / 4096 % 64) (128 + r / 64 % 64)
      (128 + r % 64) t h0 ha hc2 hc3]
    simp only [Prod.mk.injEq, List.length_cons, List.length_nil, and_true, Nat.zero_add,
      Nat.reduceAdd]
    omega

/-- The bytes of a rune that `utf8.DecodeRuneInString` accepted are its encoding. -/
theorem encodeRune_decodeRune (b : Nat) (rest : GoString) :
    ((decodeRune (b :: rest)).1 = RuneError ∧ (decodeRune (b :: rest)).2 = 1) ∨
    b :: rest.take ((decodeRune (b :: rest)).2 - 1) =
      encodeRune (decodeRune (b :: rest)).1 := by
  generalize hd : decodeRune (b :: rest) = d
  unfold decodeRune at hd
  dsimp only at hd
  repeat' split at hd
  all_goals subst hd
  all_goals first
    | exact Or.inl ⟨rfl, rfl⟩
    | (right
       try simp only [isCont, decide_eq_true_eq, acceptLo, acceptHi] at *
       unfold encodeRune MaxRune
       dsimp only [List.take, Nat.add_one_sub_one, Nat.reduceSub]
       split_ifs at * <;>
         first
           | omega
           | (simp only [List.cons.injEq, and_true, List.take_zero, List.take_succ_cons,
                List.take]
              done)
           | (simp only [List.cons.injEq, and_true, List.take_zero, List.take_succ_cons,
                List.take]
              omega))

theorem encodeRune_ne_nil (r : Nat) : encodeRune r ≠ [] := by
  unfold encodeRune
  split_ifs <;> exact List.cons_ne_nil _ _

theorem hasUpper_append (xs ys : GoString) :
    hasUpper (xs ++ ys) = (hasUpper xs || hasUpper ys) := by
  simp [hasUpper, List.any_append]

theorem hasUpper_encodeRune (r : Nat) (h : ¬ (65 ≤ r ∧ r ≤ 90)) :
    hasUpper (encodeRune r) = false := by
  unfold encodeRune hasUpper
  split_ifs <;>
    simp only [List.any_cons, List.any_nil, Bool.or_false, Bool.or_eq_false_iff,
      decide_eq_false_iff_not] <;>
    omega

theorem mapRest_nil (f : Nat → Nat) (k : Nat) : mapRest f k [] = [] := by
  cases k <;> rfl

theorem mapRest_zero_cons (f : Nat → Nat) (b : Nat) (rest : GoString) :
    mapRest f 0 (b :: rest) =
      encodeRune (f (decodeRune (b :: rest)).1) ++
        mapRest f ((decodeRune (b :: rest)).2 - 1) rest := rfl

/-- Skipping `k` bytes in the second loop is the second loop on the string without
its first `k` bytes. -/
theorem mapRest_skip (f : Nat → Nat) : ∀ (s : GoString) (k : Nat),
    mapRest f k s = mapRest f 0 (s.drop k)
  | [], k => by rw [mapRest_nil, List.drop_nil, mapRest_nil]
  | _ :: _, 0 => rfl
  | _ :: rest, k + 1 => by
      show mapRest f k rest = _
      rw [mapRest_skip f rest k, List.drop_succ_cons]

/-- The second loop of `strings.Map` on a string that starts with an encoded rune. -/
theorem mapRest_encodeRune_append (f : Nat → Nat) (r : Nat) (t : GoString) :
    mapRest f 0 (encodeRune r ++ t) =
      encodeRune (f (if r ≤ 1114111 ∧ ¬ (55296 ≤ r ∧ r ≤ 57343) then r else RuneError)) ++
        mapRest f 0 t := by
  have hd := decodeRune_encodeRune r t
  rcases he : encodeRune r with _ | ⟨e0, es⟩
  · exact absurd he (encodeRune_ne_nil r)
  · rw [he] at hd
    rw [List.cons_append] at hd ⊢
    rw [mapRest_zero_cons, hd, mapRest_skip f (es ++ t)]
    simp only [List.length_cons, Nat.add_one_sub_one, List.drop_left]

theorem encodeRune_invalid (r : Nat) (h : ¬ (r ≤ 1114111 ∧ ¬ (55296 ≤ r ∧ r ≤ 57343))) :
    encodeRune r = encodeRune RuneError := by
  have h1 : ¬ r < 128 := by omega
  have h2 : ¬ r < 2048 := by omega
  have h3 : MaxRune < r ∨ (55296 ≤ r ∧ r ≤ 57343) := by
    unfold MaxRune
    omega
  unfold encodeRune
  rw [if_neg h1, if_neg h2, if_pos h3]
  rfl

/-- The output of the second loop of `strings.Map` is a fixed point of that loop, for a
rune mapping that is idempotent and keeps `RuneError`. -/
theorem mapRest_idem (f : Nat → Nat) (hidem : ∀ c, f (f c) = f c)
    (herr : f RuneError = RuneError) : ∀ (s : GoString) (k : Nat),
    mapRest f 0 (mapRest f k s) = mapRest f k s
  | [], k => by rw [mapRest_nil, mapRest_nil]
  | _ :: rest, k + 1 => mapRest_idem f hidem herr rest k
  | b :: rest, 0 => by
      rw [mapRest_zero_cons, mapRest_encodeRune_append,
        mapRest_idem f hidem herr rest _]
      congr 1
      by_cases hv : f (decodeRune (b :: rest)).1 ≤ 1114111 ∧
          ¬ (55296 ≤ f (decodeRune (b :: rest)).1 ∧ f (decodeRune (b :: rest)).1 ≤ 57343)
      · rw [if_pos hv, hidem]
      · rw [if_neg hv, herr, encodeRune_invalid _ hv]

theorem hasUpper_mapRest (f : Nat → Nat) (hup : ∀ c, ¬ (65 ≤ f c ∧ f c ≤ 90)) :
    ∀ (s : GoString) (k : Nat), hasUpper (mapRest f k s) = false
  | [], k => by rw [mapRest_nil]; rfl
  | _ :: rest, k + 1 => hasUpper_mapRest f hup rest k
  | b :: rest, 0 => by
      rw [mapRest_zero_cons, hasUpper_append, hasUpper_encodeRune _ (hup _),
        hasUpper_mapRest f hup rest _]
      rfl

theorem getD_map_cons (o : Option GoString) (b : Nat) (rest : GoString) :
    (o.map (fun out => b :: out)).getD (b :: rest) = b :: o.getD rest := by
  cases o <;> rfl

/-- The first loop of `strings.Map` changes nothing that the second loop would not
write: `strings.Map` returns what the second loop alone returns. -/
theorem mapFirst_getD (f : Nat → Nat) : ∀ (s : GoString) (k : Nat),
    (mapFirst f k s).getD s = s.take k ++ mapRest f 0 (s.drop k)
  | [], k => by
      cases k <;> simp [mapFirst, mapRest_nil]
  | b :: rest, k + 1 => by
      show ((mapFirst f k rest).map (fun out => b :: out)).getD (b :: rest) = _
      rw [getD_map_cons, mapFirst_getD f rest k]
      rfl
  | b :: rest, 0 => by
      show (if f (decodeRune (b :: rest)).1 = (decodeRune (b :: rest)).1 ∧
            ¬ ((decodeRune (b :: rest)).1 = RuneError ∧ (decodeRune (b :: rest)).2 = 1) then
          (mapFirst f ((decodeRune (b :: rest)).2 - 1) rest).map (fun out => b :: out)
        else some (encodeRune (f (decodeRune (b :: rest)).1) ++
          mapRest f ((decodeRune (b :: rest)).2 - 1) rest)).getD (b :: rest) = _
      rw [List.take_zero, List.nil_append, List.drop_zero, mapRest_zero_cons]
      split_ifs with hc
      · rw [getD_map_cons, mapFirst_getD f rest _, hc.1, mapRest_skip f rest]
        rcases encodeRune_decodeRune b rest with he | he
        · exact absurd he hc.2
        · rw [← he]
          rfl
      · rfl

theorem stringsMap_eq_mapRest (f : Nat → Nat) (s : GoString) :
    stringsMap f s = mapRest f 0 s := by
  unfold stringsMap
  rw [mapFirst_getD f s 0]
  rfl

/-- On a string with a non-ASCII byte `strings.ToLower` returns a string it leaves
unchanged, for every rune mapping that is idempotent, keeps `RuneError` and moves the
letters `'A'..'Z'`. -/
theorem ToLower_stringsMap_fixed (f : Nat → Nat) (hidem : ∀ c, f (f c) = f c)
    (herr : f RuneError = RuneError) (hAZ : ∀ c, 65 ≤ c ∧ c ≤ 90 → f c ≠ c)
    (s : GoString) :
    ToLower (stringsMap f) (stringsMap f s) = stringsMap f s := by
  have hup : ∀ c, ¬ (65 ≤ f c ∧ f c ≤ 90) := fun c hc => hAZ (f c) hc (hidem c)
  rw [stringsMap_eq_mapRest]
  unfold ToLower
  rw [hasUpper_mapRest f hup s 0, stringsMap_eq_mapRest, mapRest_idem f hidem herr s 0]
  simp

/-! ## `strings.ToLower` is idempotent -/

theorem caseTableOk_caseRanges : caseTableOk caseRanges = true := by decide!

theorem unicodeToLower_idem (c : Nat) :
    unicodeToLower (unicodeToLower c) = unicodeToLower c :=
  toLowerRune_idem caseRanges caseTableOk_caseRanges c

theorem unicodeToLower_RuneError : unicodeToLower RuneError = RuneError := by decide!

theorem toLowerRune_moves_upper (tbl : List CaseRange) (c : Nat) (h : 65 ≤ c ∧ c ≤ 90) :
    toLowerRune tbl c ≠ c := by
  have hc : c ≤ 127 := by omega
  rw [toLowerRune_ascii tbl c hc, if_pos h]
  omega

/-- The function `strings.ToLower` over any case table that passes the check and keeps
`RuneError` is idempotent, on every byte string. -/
theorem ToLower_idem_of_caseTableOk (tbl : List CaseRange) (hok : caseTableOk tbl = true)
    (herr : toLowerRune tbl RuneError = RuneError) (s : GoString) :
    ToLower (stringsMap (toLowerRune tbl)) (ToLower (stringsMap (toLowerRune tbl)) s) =
      ToLower (stringsMap (toLowerRune tbl)) s :=
  ToLower_idem (stringsMap (toLowerRune tbl))
    (fun s _ => ToLower_stringsMap_fixed (toLowerRune tbl) (toLowerRune_idem tbl hok) herr
      (toLowerRune_moves_upper tbl) s) s

/-- The function `strings.ToLower` is idempotent, on every byte string: ASCII or not,
well-formed UTF-8 or not. -/
theorem stringsToLower_idem (s : GoString) :
    stringsToLower (stringsToLower s) = stringsToLower s :=
  ToLower_idem_of_caseTableOk caseRanges caseTableOk_caseRanges unicodeToLower_RuneError s

/-- The model of `strings.ToLower` on sample inputs: `"ÉVA"` gives `"éva"`, the Kelvin
sign U+212A gives `"k"`, `"İ"` (U+0130) gives `"i"`, `"Ÿ"` gives `"ÿ"`, U+10400 gives
U+10428, the malformed byte 0xFF is replaced by U+FFFD, and `"straße"` is unchanged. -/
theorem stringsToLower_samples :
    stringsToLower [0xC3, 0x89, 0x56, 0x41] = [0xC3, 0xA9, 0x76, 0x61] ∧
    stringsToLower [0xE2, 0x84, 0xAA] = [0x6B] ∧
    stringsToLower [0xC4, 0xB0] = [0x69] ∧
    stringsToLower [0xC5, 0xB8] = [0xC3, 0xBF] ∧
    stringsToLower [0xF0, 0x90, 0x90, 0x80] = [0xF0, 0x90, 0x90, 0xA8] ∧
    stringsToLower [0xFF, 0x41] = [0xEF, 0xBF, 0xBD, 0x61] ∧
    stringsToLower [0x73, 0x74, 0x72, 0x61, 0xC3, 0x9F, 0x65] =
      [0x73, 0x74, 0x72, 0x61, 0xC3, 0x9F, 0x65] := by
  decide!

/-! ## Topic naming: the claims -/

/-- C1: topic derivation is order-independent. For all query parameters `A` and `B`
(and whatever the Unicode tables behind `strings.ToLower` are), the topic that
`VideoConnections` computes for `userID = A, peerID = B` is the topic it computes for
`userID = B, peerID = A`. -/
theorem C1_topic_order_independent (mapLower : GoString → GoString) (A B : GoString) :
    topicName mapLower A B = topicName mapLower B A := by
  simp only [topicName, sortedPeers_comm mapLower A B]

/-- C2: topic derivation is case-insensitive. For all query parameters `A` and `B`,
byte strings of any content, the topic computed for `(A, B)` is the topic computed for
`(lower A, lower B)`, where `lower` is `strings.ToLower`, the normalisation that
`VideoConnections` applies to both identifiers. -/
theorem C2_topic_case_insensitive (A B : GoString) :
    topicName mapToLower A B =
      topicName mapToLower (stringsToLower A) (stringsToLower B) := by
  simp only [topicName, sortedPeers]
  rw [show ToLower mapToLower (stringsToLower A) = ToLower mapToLower A from
        stringsToLower_idem A,
      show ToLower mapToLower (stringsToLower B) = ToLower mapToLower B from
        stringsToLower_idem B]

/-- C3: for all `A` and `B` the topic is exactly `"video-" ++ lo ++ "-" ++ hi`, where
`lo` and `hi` are `lower A` and `lower B` arranged so that `hi` is not lexicographically
below `lo`; and both `(alice, bob)` and `(bob, alice)` yield `"video-alice-bob"`. -/
theorem C3_topic_format (mapLower : GoString → GoString) :
    (∀ A B : GoString, ∃ lo hi : GoString,
      ((lo = ToLower mapLower A ∧ hi = ToLower mapLower B) ∨
        (lo = ToLower mapLower B ∧ hi = ToLower mapLower A)) ∧
      ¬ List.Lex (fun x y : Nat => x < y) hi lo ∧
      topicName mapLower A B = lit "video-" ++ lo ++ lit "-" ++ hi) ∧
    topicName mapLower (lit "alice") (lit "bob") = lit "video-alice-bob" ∧
    topicName mapLower (lit "bob") (lit "alice") = lit "video-alice-bob" := by
  refine ⟨?_, rfl, rfl⟩
  intro A B
  rcases sortedPeers_cases mapLower A B with ⟨hp, hl⟩ | ⟨hp, hl⟩
  · refine ⟨ToLower mapLower A, ToLower mapLower B, Or.inl ⟨rfl, rfl⟩, ?_, ?_⟩
    · rw [← strLess_iff_lex, hl]; simp
    · simp [topicName, hp]
  · refine ⟨ToLower mapLower B, ToLower mapLower A, Or.inr ⟨rfl, rfl⟩, ?_, ?_⟩
    · rw [← strLess_iff_lex, hl]; simp
    · simp [topicName, hp]

/-- C5, counterexample: the pairs `("a-b", "c")` and `("a", "b-c")` get the same topic
`"video-a-b-c"` and are different unordered pairs after lowering. -/
theorem C5_counterexample :
    topicName id (lit "a-b") (lit "c") = lit "video-a-b-c" ∧
    topicName id (lit "a") (lit "b-c") = lit "video-a-b-c" ∧
    ¬ SamePair (ToLower id (lit "a-b")) (ToLower id (lit "c"))
        (ToLower id (lit "a")) (ToLower id (lit "b-c")) := by
  decide

/-- C5, amended: if in both pairs the lexicographically smaller lowered identifier
contains no `'-'` (byte 45), or in both pairs the larger one contains none, then equal
topics for `(A, B)` and `(C, D)` force `{lower A, lower B} = {lower C, lower D}`. -/
theorem C5_topic_injective_without_separator (mapLower : GoString → GoString)
    (A B C D : GoString)
    (hsep :
      (45 ∉ (sortedPeers mapLower A B).getD 0 [] ∧
        45 ∉ (sortedPeers mapLower C D).getD 0 []) ∨
      (45 ∉ (sortedPeers mapLower A B).getD 1 [] ∧
        45 ∉ (sortedPeers mapLower C D).getD 1 []))
    (h : topicName mapLower A B = topicName mapLower C D) :
    SamePair (ToLower mapLower A) (ToLower mapLower B)
      (ToLower mapLower C) (ToLower mapLower D) := by
  rw [topicName_eq, topicName_eq] at h
  have h' := List.append_cancel_left h
  have hparts :
      (sortedPeers mapLower A B).getD 0 [] = (sortedPeers mapLower C D).getD 0 [] ∧
      (sortedPeers mapLower A B).getD 1 [] = (sortedPeers mapLower C D).getD 1 [] := by
    rcases hsep with ⟨h1, h2⟩ | ⟨h1, h2⟩
    · exact append_sep_inj_left 45 _ _ _ _ h1 h2 h'
    · exact append_sep_inj_right 45 _ _ _ _ h1 h2 h'
  rcases sortedPeers_cases mapLower A B with ⟨hab, -⟩ | ⟨hab, -⟩ <;>
    rcases sortedPeers_cases mapLower C D with ⟨hcd, -⟩ | ⟨hcd, -⟩ <;>
    rw [hab, hcd] at hparts <;>
    simp only [List.getD_cons_zero, List.getD_cons_succ] at hparts
  · exact Or.inl hparts
  · exact Or.inr hparts
  · exact Or.inr ⟨hparts.2, hparts.1⟩
  · exact Or.inl ⟨hparts.2, hparts.1⟩

/-- Witness for the amended C5 at `("Bob", "alice")` and `("ALICE", "bob")`: no
identifier holds a `'-'`, both topics are `"video-alice-bob"`, and the lowered pairs
agree. -/
theorem C5_topic_injective_without_separator_witness :
    (45 ∉ (sortedPeers id (lit "Bob") (lit "alice")).getD 0 [] ∧
      45 ∉ (sortedPeers id (lit "ALICE") (lit "bob")).getD 0 []) ∧
    topicName id (lit "Bob") (lit "alice") = topicName id (lit "ALICE") (lit "bob") ∧
    SamePair (ToLower id (lit "Bob")) (ToLower id (lit "alice"))
      (ToLower id (lit "ALICE")) (ToLower id (lit "bob")) :=
  ⟨by decide, by decide,
   C5_topic_injective_without_separator id (lit "Bob") (lit "alice") (lit "ALICE")
    (lit "bob") (Or.inl (by decide)) (by decide)⟩

/-! ## The outbound relay: the claims -/

/-- C4: echo suppression and verbatim forwarding. For every delivered message `m`, every
session `userID` and every outcome of the write, the callback writes nothing when
`m.Reply = userID` and otherwise writes exactly once, the bytes `m.Data`. The message
`offer` from alice is forwarded as `"offer"` by the session of bob and dropped by the
session of alice. -/
theorem C4_echo_suppression :
    (∀ (userID : GoString) (m : Msg) (writeErr : Option GoString),
      writeAttempts (relayCallback userID m writeErr) =
        if m.Reply = userID then [] else [m.Data]) ∧
    writeAttempts (relayCallback (lit "bob") offerFromAlice none) = [lit "offer"] ∧
    writeAttempts (relayCallback (lit "alice") offerFromAlice none) = [] := by
  refine ⟨?_, by decide, by decide⟩
  intro userID m writeErr
  by_cases h : m.Reply = userID
  · simp [relayCallback, writeAttempts, h]
  · cases writeErr <;> simp [relayCallback, writeAttempts, h]

/-- C6, counterexample: with `Subscribe` failing, `natsConnLoop` ends in a panic, and so
does `VideoConnections`. -/
theorem C6_counterexample :
    (natsConnLoop aliceBobTopic (lit "alice") (some (lit "nats: connection closed"))
        emptyWorld).1 = Outcome.panicked (lit "nats: connection closed") ∧
    (VideoConnections id none (lit "alice") (lit "bob")
        (some (lit "nats: connection closed")) emptyWorld).1.isPanic = true := by
  decide

/-- C6, amended: whenever `Subscribe` returns an error `e`, `natsConnLoop` ends in a
panic carrying `e` and registers nothing; `VideoConnections`, once the connection is
accepted, has started the pump and ends in the same panic. -/
theorem C6_subscribe_error_panics (mapLower : GoString → GoString)
    (topic userID A B e : GoString) (w : World) :
    (natsConnLoop topic userID (some e) w).1 = Outcome.panicked e ∧
    (natsConnLoop topic userID (some e) w).2.subs = w.subs ∧
    (VideoConnections mapLower none A B (some e) w).1 = Outcome.panicked e ∧
    (VideoConnections mapLower none A B (some e) w).2.subs = w.subs ∧
    Event.goWsLoop (topicName mapLower A B) (ToLower mapLower A) ∈
      (VideoConnections mapLower none A B (some e) w).2.trace := by
  simp [natsConnLoop, VideoConnections, World.emit, sessionUserID]

theorem closeCount_relayCallback (userID : GoString) (m : Msg)
    (writeErr : Option GoString) : closeCount (relayCallback userID m writeErr) = 0 := by
  by_cases h : m.Reply = userID
  · simp [relayCallback, closeCount, h]
  · cases writeErr <;> simp [relayCallback, closeCount, h]

theorem cancelCount_relayCallback (userID : GoString) (m : Msg)
    (writeErr : Option GoString) : cancelCount (relayCallback userID m writeErr) = 0 := by
  by_cases h : m.Reply = userID
  · simp [relayCallback, cancelCount, h]
  · cases writeErr <;> simp [relayCallback, cancelCount, h]

theorem closeCount_deliveryEvents (subs : List Subscription) (m : Msg)
    (writeErr : Option GoString) : closeCount (deliveryEvents subs m writeErr) = 0 := by
  induction subs with
  | nil => rfl
  | cons s rest ih =>
      unfold deliveryEvents closeCount at ih ⊢
      by_cases h : s.topic = m.Subject
      · have hc := closeCount_relayCallback s.userID m writeErr
        unfold closeCount at hc
        simp only [List.filter_cons, h, decide_True, if_true, List.flatMap_cons,
          List.countP_append, hc, ih]
      · simpa only [List.filter_cons, h, decide_False] using ih

theorem cancelCount_deliveryEvents (subs : List Subscription) (m : Msg)
    (writeErr : Option GoString) : cancelCount (deliveryEvents subs m writeErr) = 0 := by
  induction subs with
  | nil => rfl
  | cons s rest ih =>
      unfold deliveryEvents cancelCount at ih ⊢
      by_cases h : s.topic = m.Subject
      · have hc := cancelCount_relayCallback s.userID m writeErr
        unfold cancelCount at hc
        simp only [List.filter_cons, h, decide_True, if_true, List.flatMap_cons,
          List.countP_append, hc, ih]
      · simpa only [List.filter_cons, h, decide_False] using ih

theorem writeAttempts_append (xs ys : List Event) :
    writeAttempts (xs ++ ys) = writeAttempts xs ++ writeAttempts ys := by
  simp [writeAttempts, List.filterMap_append]

theorem data_mem_writeAttempts_deliveryEvents (subs : List Subscription)
    (s : Subscription) (m : Msg) (writeErr : Option GoString)
    (hs : s ∈ subs) (hm : m.Subject = s.topic) (hr : m.Reply ≠ s.userID) :
    m.Data ∈ writeAttempts (deliveryEvents subs m writeErr) := by
  induction subs with
  | nil => cases hs
  | cons t rest ih =>
      by_cases ht : t.topic = m.Subject
      · have e : deliveryEvents (t :: rest) m writeErr =
            relayCallback t.userID m writeErr ++ deliveryEvents rest m writeErr := by
          simp [deliveryEvents, ht]
        rw [e, writeAttempts_append, List.mem_append]
        rcases List.mem_cons.mp hs with h | h
        · left
          subst h
          cases writeErr <;> simp [relayCallback, writeAttempts, hr]
        · exact Or.inr (ih h)
      · have e : deliveryEvents (t :: rest) m writeErr = deliveryEvents rest m writeErr := by
          simp [deliveryEvents, ht]
        rw [e]
        rcases List.mem_cons.mp hs with h | h
        · subst h
          exact absurd hm.symm ht
        · exact ih h

/-- Neither the pump nor a delivery changes the registrations held by the bus client:
the program never unsubscribes. -/
theorem subs_unchanged (topic userID : GoString) (pe : Nat → Option GoString)
    (reads : List ReadResult) (closeErr : Option GoString) (m : Msg)
    (writeErr : Option GoString) (w : World) :
    (runWsLoop topic userID pe reads closeErr w).subs = w.subs ∧
    (deliver m writeErr w).subs = w.subs :=
  ⟨rfl, rfl⟩

/-- After any run of the pump, a message on the topic of a registered session from
another origin is passed to `ws.Write` by that session's callback. -/
theorem write_attempt_after_pump (topic userID : GoString) (pe : Nat → Option GoString)
    (reads : List ReadResult) (closeErr : Option GoString) (w : World)
    (s : Subscription) (m : Msg) (writeErr : Option GoString)
    (hs : s ∈ w.subs) (hm : m.Subject = s.topic) (hr : m.Reply ≠ s.userID) :
    m.Data ∈ writeAttempts
      (deliveryEvents (runWsLoop topic userID pe reads closeErr w).subs m writeErr) :=
  data_mem_writeAttempts_deliveryEvents _ s m writeErr hs hm hr

/-- C7, the code at the failing input: the pump of alice's session has ended on a read
failure, the session's connection has been closed once and the cancellation fired, yet
its registration is still held by the bus client, and the delivery of bob's `"offer"`
runs its callback, which calls `ws.Write` with `"offer"`. -/
theorem C7_write_attempt_after_teardown :
    closeCount aliceAfterReadFailure.trace = 1 ∧
    cancelCount aliceAfterReadFailure.trace = 1 ∧
    aliceAfterReadFailure.subs = [{ topic := aliceBobTopic, userID := lit "alice" }] ∧
    writeAttempts
      (deliveryEvents aliceAfterReadFailure.subs offerFromBob
        (some (lit "use of closed network connection"))) = [lit "offer"] := by
  decide

/-- C8, counterexample: the write of bob's `"offer"` to alice's connection fails; after
the callback has returned the connection has not been closed, the registration is still
held, and the delivery of bob's `"answer"` calls `ws.Write` again. -/
theorem C8_counterexample :
    writeAttempts aliceAfterWriteFailure.trace = [lit "offer"] ∧
    closeCount aliceAfterWriteFailure.trace = 0 ∧
    aliceAfterWriteFailure.subs = [{ topic := aliceBobTopic, userID := lit "alice" }] ∧
    writeAttempts
      (deliveryEvents aliceAfterWriteFailure.subs answerFromBob
        (some (lit "broken pipe"))) = [lit "answer"] := by
  decide

/-- C8, amended: when the write of a delivered message `m` to the connection of a
registered session `s` fails with `e`, the callback logs the failure under the
session's `userID` and returns; no close and no cancellation is issued, the
registrations are unchanged, and a later message `m2` on the topic from another origin
is again passed to `ws.Write`. -/
theorem C8_write_failure_only_logged (w : World) (s : Subscription) (m m2 : Msg)
    (e : GoString) (e2 : Option GoString)
    (hs : s ∈ w.subs) (hm : m.Subject = s.topic) (hr : m.Reply ≠ s.userID)
    (hm2 : m2.Subject = s.topic) (hr2 : m2.Reply ≠ s.userID) :
    relayCallback s.userID m (some e) =
      [Event.ack, Event.wsWrite m.Data (some e),
        Event.logPrintf (lit "Error writing message to " ++ s.userID ++ lit ": " ++ e)] ∧
    m.Data ∈ writeAttempts (deliveryEvents w.subs m (some e)) ∧
    (deliver m (some e) w).subs = w.subs ∧
    closeCount (deliver m (some e) w).trace = closeCount w.trace ∧
    cancelCount (deliver m (some e) w).trace = cancelCount w.trace ∧
    m2.Data ∈ writeAttempts (deliveryEvents (deliver m (some e) w).subs m2 e2) := by
  refine ⟨by simp [relayCallback, hr],
    data_mem_writeAttempts_deliveryEvents w.subs s m (some e) hs hm hr, rfl, ?_, ?_, ?_⟩
  · have h := closeCount_deliveryEvents w.subs m (some e)
    unfold closeCount at h ⊢
    simp only [deliver, World.emit, List.countP_append, h, Nat.add_zero]
  · have h := cancelCount_deliveryEvents w.subs m (some e)
    unfold cancelCount at h ⊢
    simp only [deliver, World.emit, List.countP_append, h, Nat.add_zero]
  · exact data_mem_writeAttempts_deliveryEvents w.subs s m2 e2 hs hm2 hr2

/-- Witness for the amended C8 in alice's session: bob's `"offer"` meets a write failure,
bob's `"answer"` follows and is written. -/
theorem C8_write_failure_only_logged_witness :
    ({ topic := aliceBobTopic, userID := lit "alice" } : Subscription) ∈ aliceOpen.subs ∧
    offerFromBob.Subject = aliceBobTopic ∧ offerFromBob.Reply ≠ lit "alice" ∧
    answerFromBob.Subject = aliceBobTopic ∧ answerFromBob.Reply ≠ lit "alice" ∧
    closeCount (deliver offerFromBob (some (lit "broken pipe")) aliceOpen).trace =
      closeCount aliceOpen.trace ∧
    answerFromBob.Data ∈ writeAttempts
      (deliveryEvents (deliver offerFromBob (some (lit "broken pipe")) aliceOpen).subs
        answerFromBob none) :=
  have h := C8_write_failure_only_logged aliceOpen
    { topic := aliceBobTopic, userID := lit "alice" } offerFromBob answerFromBob
    (lit "broken pipe") none (by decide) (by decide) (by decide) (by decide) (by decide)
  ⟨by decide, by decide, by decide, by decide, by decide, h.2.2.2.1, h.2.2.2.2.2⟩

/-! ## The inbound pump: lemmas -/

theorem firstPublishFailure_succ (pe : Nat → Option GoString) (n : Nat) :
    firstPublishFailure pe (n + 1) =
      if (pe 0).isSome then some 0
      else (firstPublishFailure (fun k => pe (k + 1)) n).map (fun k => k + 1) := by
  unfold firstPublishFailure
  rw [List.range_succ_eq_map, List.find?_cons]
  cases h : (pe 0).isSome
  · simp only [List.find?_map, Bool.false_eq_true, if_false]
    rfl
  · simp

theorem published_wsLoopFor (topic userID : GoString) :
    ∀ (reads : List ReadResult) (pe : Nat → Option GoString),
      published (wsLoopFor topic userID pe reads).1 = specPublished topic userID pe reads
  | [], pe => by
      simp [wsLoopFor, published, specPublished, specPayloads, readsBeforeFailure,
        firstPublishFailure]
  | ReadResult.err e :: rest, pe => by
      simp [wsLoopFor, published, specPublished, specPayloads, readsBeforeFailure,
        firstPublishFailure]
  | ReadResult.ok p :: rest, pe => by
      have ih := published_wsLoopFor topic userID rest (fun k => pe (k + 1))
      unfold specPublished specPayloads at ih ⊢
      simp only [readsBeforeFailure, List.length_cons, firstPublishFailure_succ]
      cases h : pe 0 with
      | some e => simp [wsLoopFor, h, published]
      | none =>
          simp only [wsLoopFor, h, Option.isSome_none, Bool.false_eq_true, if_false]
          have hp : ∀ evs : List Event,
              published (Event.wsRead (ReadResult.ok p) ::
                Event.publishMsg { Subject := topic, Reply := userID, Data := p } none :: evs)
              = { Subject := topic, Reply := userID, Data := p } :: published evs := by
            intro evs; simp [published]
          rw [hp, ih]
          rcases hk : firstPublishFailure (fun k => pe (k + 1))
            (readsBeforeFailure rest).length with _ | k <;> simp [hk]

theorem published_wsLoop (topic userID : GoString) (pe : Nat → Option GoString)
    (reads : List ReadResult) (closeErr : Option GoString) :
    published (wsLoop topic userID pe reads closeErr) =
      published (wsLoopFor topic userID pe reads).1 := by
  unfold wsLoop
  rcases h : wsLoopFor topic userID pe reads with ⟨evs, ex⟩
  cases ex <;> cases closeErr <;> simp [published, closeWS, List.filterMap_append]

theorem isReadOrPublish_of_isFailure (e : Event) (h : e.isFailure = true) :
    e.isReadOrPublish = true := by
  cases e <;> simp_all [Event.isFailure, Event.isReadOrPublish]

theorem quietAfterFailure_of_no_io : ∀ (evs : List Event),
    (∀ x ∈ evs, x.isReadOrPublish = false) → quietAfterFailure evs = true
  | [], _ => rfl
  | e :: rest, h => by
      have he : e.isFailure = false := by
        cases hf : e.isFailure
        · rfl
        · have := isReadOrPublish_of_isFailure e hf
          rw [h e (List.mem_cons_self _ _)] at this
          cases this
      simp only [quietAfterFailure, he, Bool.false_eq_true, if_false]
      exact quietAfterFailure_of_no_io rest (fun x hx => h x (List.mem_cons_of_mem _ hx))

theorem quietAfterFailure_cons (e : Event) (rest : List Event) :
    quietAfterFailure (e :: rest) =
      if e.isFailure then rest.all (fun x => !x.isReadOrPublish)
      else quietAfterFailure rest := rfl

theorem quietAfterFailure_append : ∀ (evs tail : List Event),
    quietAfterFailure evs = true → (∀ x ∈ tail, x.isReadOrPublish = false) →
    quietAfterFailure (evs ++ tail) = true
  | [], tail, _, ht => quietAfterFailure_of_no_io tail ht
  | e :: rest, tail, h, ht => by
      rw [List.cons_append, quietAfterFailure_cons]
      rw [quietAfterFailure_cons] at h
      cases he : e.isFailure
      · rw [he] at h
        simp only [Bool.false_eq_true, if_false] at h ⊢
        exact quietAfterFailure_append rest tail h ht
      · rw [he] at h
        simp only [if_true, List.all_eq_true, Bool.not_eq_true', List.mem_append] at h ⊢
        intro x hx
        rcases hx with hx | hx
        · exact h x hx
        · exact ht x hx

theorem quietAfterFailure_split : ∀ (pre : List Event) (e : Event) (post : List Event),
    quietAfterFailure (pre ++ e :: post) = true → e.isFailure = true →
    ∀ x ∈ post, x.isReadOrPublish = false
  | [], e, post, h, he => by
      rw [List.nil_append, quietAfterFailure_cons, he] at h
      simpa using h
  | p :: pre, e, post, h, he => by
      rw [List.cons_append, quietAfterFailure_cons] at h
      cases hp : p.isFailure
      · rw [hp] at h
        simp only [Bool.false_eq_true, if_false] at h
        exact quietAfterFailure_split pre e post h he
      · rw [hp] at h
        simp only [if_true, List.all_eq_true, Bool.not_eq_true', List.mem_append,
          List.mem_cons] at h
        intro x hx
        exact h x (Or.inr (Or.inr hx))

theorem quietAfterFailure_wsLoopFor (topic userID : GoString) :
    ∀ (reads : List ReadResult) (pe : Nat → Option GoString),
      quietAfterFailure (wsLoopFor topic userID pe reads).1 = true
  | [], _ => rfl
  | ReadResult.err _ :: _, _ => by
      simp [wsLoopFor, quietAfterFailure, Event.isFailure, Event.isReadOrPublish]
  | ReadResult.ok p :: rest, pe => by
      cases h : pe 0 with
      | some e =>
          simp [wsLoopFor, h, quietAfterFailure, Event.isFailure, Event.isReadOrPublish]
      | none =>
          simp only [wsLoopFor, h, quietAfterFailure, Event.isFailure,
            Bool.false_eq_true, if_false]
          exact quietAfterFailure_wsLoopFor topic userID rest (fun k => pe (k + 1))

theorem quietAfterFailure_wsLoop (topic userID : GoString) (pe : Nat → Option GoString)
    (reads : List ReadResult) (closeErr : Option GoString) :
    quietAfterFailure (wsLoop topic userID pe reads closeErr) = true := by
  have hq := quietAfterFailure_wsLoopFor topic userID reads pe
  unfold wsLoop
  rcases h : wsLoopFor topic userID pe reads with ⟨evs, ex⟩
  rw [h] at hq
  cases ex
  · simp only [List.append_assoc]
    apply quietAfterFailure_append evs _ hq
    cases closeErr <;> simp [closeWS, Event.isReadOrPublish]
  · apply quietAfterFailure_append evs _ hq
    cases closeErr <;> simp [closeWS, Event.isReadOrPublish]
  · exact hq

theorem counts_wsLoopFor (topic userID : GoString) :
    ∀ (reads : List ReadResult) (pe : Nat → Option GoString),
      closeCount (wsLoopFor topic userID pe reads).1 = 0 ∧
      cancelCount (wsLoopFor topic userID pe reads).1 = 0
  | [], _ => ⟨rfl, rfl⟩
  | ReadResult.err _ :: _, _ => by simp [wsLoopFor, closeCount, cancelCount]
  | ReadResult.ok p :: rest, pe => by
      have ih := counts_wsLoopFor topic userID rest (fun k => pe (k + 1))
      unfold closeCount cancelCount at ih ⊢
      cases h : pe 0 with
      | some e => simp [wsLoopFor, h]
      | none => simpa [wsLoopFor, h] using ih

/-- Teardown issued by `wsLoop`, on all inputs: `ws.Close` is called once on either
failure exit (and not while the pump is suspended in a read); `cancelFunc` is called
once when the loop was left on a read failure and not at all otherwise. -/
theorem wsLoop_teardown (topic userID : GoString) (pe : Nat → Option GoString)
    (reads : List ReadResult) (closeErr : Option GoString) :
    closeCount (wsLoop topic userID pe reads closeErr) =
      (if wsLoopExit topic userID pe reads = LoopExit.suspended then 0 else 1) ∧
    cancelCount (wsLoop topic userID pe reads closeErr) =
      (if wsLoopExit topic userID pe reads = LoopExit.broke then 1 else 0) := by
  have hc := counts_wsLoopFor topic userID reads pe
  unfold wsLoop wsLoopExit
  rcases h : wsLoopFor topic userID pe reads with ⟨evs, ex⟩
  rw [h] at hc
  unfold closeCount cancelCount at hc ⊢
  cases ex <;> cases closeErr <;> simp [closeWS, List.countP_append, hc.1, hc.2]

/-! ## The inbound pump: the claims -/

/-- C9: inbound pump output. For all read results and publish results, the messages
`wsLoop` passes to `PublishMsg` are, in read order, the payloads read before the first
read failure, cut after the first one whose publish fails, each with `Subject` the
topic, `Reply` the session's `userID` and `Data` the payload unchanged; and whatever
follows a failed read or a failed publish in the trace is neither a read nor a
publish. -/
theorem C9_pump_output (topic userID : GoString) (publishErr : Nat → Option GoString)
    (reads : List ReadResult) (closeErr : Option GoString) :
    published (wsLoop topic userID publishErr reads closeErr) =
      (specPayloads publishErr reads).map
        (fun p => { Subject := topic, Reply := userID, Data := p }) ∧
    (∀ (pre : List Event) (e : Event) (post : List Event),
      wsLoop topic userID publishErr reads closeErr = pre ++ e :: post →
      e.isFailure = true → ∀ x ∈ post, x.isReadOrPublish = false) := by
  refine ⟨?_, ?_⟩
  · rw [published_wsLoop, published_wsLoopFor]
    rfl
  · intro pre e post hsplit he
    have hq := quietAfterFailure_wsLoop topic userID publishErr reads closeErr
    rw [hsplit] at hq
    exact quietAfterFailure_split pre e post hq he

/-- C10, the code at the failing input: the pump reads `"offer"`, the publish fails, and
`wsLoop` returns through the deferred close alone: `ws.Close` is called once, after the
publish, and `cancelFunc` is not called. On a read failure both are called. -/
theorem C10_publish_failure_skips_cancel :
    wsLoop aliceBobTopic (lit "alice") (fun _ => some (lit "nats: connection closed"))
        [ReadResult.ok (lit "offer")] none =
      [Event.wsRead (ReadResult.ok (lit "offer")),
        Event.publishMsg { Subject := aliceBobTopic, Reply := lit "alice", Data := lit "offer" }
          (some (lit "nats: connection closed")),
        Event.logPrintf (lit "Could not publish message: nats: connection closed"),
        Event.wsClose none] ∧
    cancelCount (wsLoop aliceBobTopic (lit "alice")
        (fun _ => some (lit "nats: connection closed"))
        [ReadResult.ok (lit "offer")] none) = 0 ∧
    wsLoop aliceBobTopic (lit "alice") (fun _ => none) [ReadResult.err (lit "EOF")] none =
      [Event.wsRead (ReadResult.err (lit "EOF")),
        Event.logPrintf (lit "Error reading message EOF"),
        Event.cancelFunc, Event.wsClose none] := by
  decide

end VideoCall
